import Mathlib

/-!
Shallow embedding of the color-matching and palette-generation engine of the
`inks-mcp` repository (`src/utils.ts` and the palette construction in
`src/index.ts`), together with theorems settling the frozen claims about it.

Modelling conventions:
* JS `number` values are embedded as `ℤ` where the source only ever holds
  integers (RGB channels, squared distances) and as `ℚ` where the source
  performs divisions (HSL components, color temperature).  All arithmetic in
  the embedded fragments is exact in `ℚ`; the spec's own tolerance (±1 per
  channel, from integer rounding) absorbs the idealization of IEEE doubles.
* JS exceptions are embedded as `Except`.
* JS strings are Lean `String`s; character-level operations (`parseInt`,
  `toLowerCase`, hex rendering) are modelled on character codes.
-/

/-- Model of an RGB triple `[r, g, b]` as used throughout `utils.ts`.
Channels are integers; the engine's convention is each channel lies in
`[0, 255]`, which theorems state explicitly where they need it. -/
structure Rgb where
  r : ℤ
  g : ℤ
  b : ℤ
  deriving DecidableEq, Repr

/-- Proposition that an `Rgb` value has all channels in `[0, 255]`. -/
def Rgb.InRange (c : Rgb) : Prop :=
  0 ≤ c.r ∧ c.r ≤ 255 ∧ 0 ≤ c.g ∧ c.g ≤ 255 ∧ 0 ≤ c.b ∧ c.b ≤ 255

instance (c : Rgb) : Decidable c.InRange := by
  unfold Rgb.InRange; infer_instance

/-- Model of an HSL triple `[h, s, l]` (hue in degrees `[0, 360)`, saturation
and lightness in `[0, 1]`), as produced by `rgbToHsl` in `utils.ts`. -/
structure Hsl where
  h : ℚ
  s : ℚ
  l : ℚ
  deriving DecidableEq, Repr

/-- Model of `hex.replace(/^#/, '')` from `hexToRgb`: strips one leading
`'#'` character if present. -/
def stripHash (s : String) : String :=
  match s.data with
  | '#' :: rest => String.mk rest
  | _ => s

/-- Hexadecimal digit value of a character code (`0-9`, `a-f`, `A-F`),
`none` for every other code.  This is the digit test used by JS
`parseInt(s, 16)`. -/
def hexVal? (n : ℕ) : Option ℕ :=
  if 48 ≤ n ∧ n ≤ 57 then some (n - 48)
  else if 65 ≤ n ∧ n ≤ 70 then some (n - 55)
  else if 97 ≤ n ∧ n ≤ 102 then some (n - 87)
  else none

/-- Hexadecimal digit value, defaulting to 0 (only used on characters that
passed the `hexVal?` test). -/
def hexValN (n : ℕ) : ℕ :=
  (hexVal? n).getD 0

/-- Character codes treated as leading whitespace by JS `parseInt`
(ASCII whitespace, NBSP, line/paragraph separator, BOM). -/
def isJsWhitespace (c : Char) : Bool :=
  c.toNat = 9 ∨ c.toNat = 10 ∨ c.toNat = 11 ∨ c.toNat = 12 ∨ c.toNat = 13 ∨
  c.toNat = 32 ∨ c.toNat = 160 ∨ c.toNat = 8232 ∨ c.toNat = 8233 ∨ c.toNat = 65279

/-- Test whether a character is a hexadecimal digit (as consumed by
`parseInt(s, 16)`). -/
def isHexDigitChar (c : Char) : Bool :=
  (hexVal? c.toNat).isSome

/-- Longest-prefix hexadecimal parse of a character list, after an optional
`0x`/`0X` prefix: JS `parseInt` semantics for radix 16 on the remainder of
the string.  Returns `none` (NaN) when no digit is consumed. -/
def parseHexDigits (cs : List Char) : Option ℕ :=
  let cs2 := match cs with
    | a :: x :: rest => if a = '0' ∧ (x = 'x' ∨ x = 'X') then rest else a :: x :: rest
    | short => short
  let digs := cs2.takeWhile isHexDigitChar
  if digs.isEmpty then none
  else some (digs.foldl (fun a c => 16 * a + hexValN c.toNat) 0)

/-- Model of JS `parseInt(s, 16)`: skip leading whitespace, optional sign,
optional `0x` prefix, then the longest run of hex digits; `none` models the
NaN result when no digit is found. -/
def jsParseIntHex (s : String) : Option ℤ :=
  match s.data.dropWhile isJsWhitespace with
  | [] => none
  | c :: rest =>
    if c = '-' then (parseHexDigits rest).map (fun n => -(n : ℤ))
    else if c = '+' then (parseHexDigits rest).map (fun n => (n : ℤ))
    else (parseHexDigits (c :: rest)).map (fun n => (n : ℤ))

/-- Unsigned 32-bit representative of a JS number entering a bitwise
operator; `none` (NaN) becomes 0, as `ToInt32` prescribes.  JS `>>` is an
arithmetic shift on the signed 32-bit view, but for the uses in `hexToRgb`
(`(x >> 16) & 255`, `(x >> 8) & 255`, `x & 255`) the extracted byte equals
the corresponding byte of this unsigned representative, because the mask
`& 255` discards the sign-extension bits: embedding the extractions as
`u / 2^k % 256` below is exact. -/
def jsToUint32 : Option ℤ → ℕ
  | none => 0
  | some z => (z % 4294967296).toNat

/-- Model of `hexToRgb` (`utils.ts`): strips an optional leading `#`,
throws `Invalid hex color string` when the remaining length is not 6, and
otherwise decodes via `parseInt(cleanHex, 16)` followed by byte extraction
with shifts and masks. -/
def hexToRgb (hex : String) : Except String Rgb :=
  let cleanHex := stripHash hex
  if cleanHex.data.length ≠ 6 then
    .error "Invalid hex color string"
  else
    let u := jsToUint32 (jsParseIntHex cleanHex)
    .ok ⟨((u / 65536) % 256 : ℕ), ((u / 256) % 256 : ℕ), (u % 256 : ℕ)⟩

/-- Lowercase hexadecimal digit character for a nibble (`0-9` → `'0'`-`'9'`,
`10-15` → `'a'`-`'f'`), as produced by JS `Number.prototype.toString(16)`. -/
def hexDigitChar (d : ℕ) : Char :=
  Char.ofNat (if d < 10 then 48 + d else 87 + d)

/-- Six-nibble lowercase rendering of a natural number below `2^24`.  This is
what `((1 << 24) + v).toString(16).slice(1)` computes in `rgbToHex`: adding
`1 << 24` forces a 7-digit rendering whose first digit is `1`, and `slice(1)`
drops it, leaving exactly the six zero-padded nibbles of `v`. -/
def hexDigits6 (v : ℕ) : List Char :=
  [hexDigitChar (v / 1048576 % 16), hexDigitChar (v / 65536 % 16),
   hexDigitChar (v / 4096 % 16), hexDigitChar (v / 256 % 16),
   hexDigitChar (v / 16 % 16), hexDigitChar (v % 16)]

/-- Model of `rgbToHex` (`utils.ts`): renders `#` followed by the six
zero-padded lowercase hex digits of `(r << 16) + (g << 8) + b`. -/
def rgbToHex (c : Rgb) : String :=
  String.mk ('#' :: hexDigits6 (c.r * 65536 + c.g * 256 + c.b).toNat)

/-- Model of JS `String.prototype.toLowerCase` on a single character,
restricted to the ASCII mapping (every character the engine's strings can
contain): uppercase `A`-`Z` maps to the code 32 higher, everything else maps
to itself. -/
def jsLowerCode (n : ℕ) : ℕ :=
  if 65 ≤ n ∧ n ≤ 90 then n + 32 else n

/-- Character-level JS `toLowerCase` (ASCII range). -/
def jsToLowerChar (c : Char) : Char :=
  Char.ofNat (jsLowerCode c.toNat)

/-- Model of JS `String.prototype.toLowerCase` (ASCII range). -/
def jsToLowerString (s : String) : String :=
  String.mk (s.data.map jsToLowerChar)

/-- Proposition that a string is a valid hex color input: after stripping an
optional leading `#`, exactly 6 hexadecimal digits remain. -/
def ValidHex6 (s : String) : Prop :=
  (stripHash s).data.length = 6 ∧ ∀ c ∈ (stripHash s).data, isHexDigitChar c = true

instance (s : String) : Decidable (ValidHex6 s) := by
  unfold ValidHex6; infer_instance

/-- Test whether a lowercase character code is a lowercase hex digit
(`'0'`-`'9'` or `'a'`-`'f'`). -/
def isLowerHexDigit (c : Char) : Bool :=
  (48 ≤ c.toNat ∧ c.toNat ≤ 57) ∨ (97 ≤ c.toNat ∧ c.toNat ≤ 102)

/-- Squared Euclidean RGB distance.  The source's `calculateColorDistance`
returns `Math.sqrt` of this quantity; since `sqrt` is strictly monotone (and
injective on the integers `≤ 3·255²` at double precision), every comparison,
sort order and tie in the engine is invariant under dropping the square
root, so the embedding works with the squared distance throughout. -/
def calculateColorDistanceSq (rgb1 rgb2 : Rgb) : ℤ :=
  (rgb1.r - rgb2.r) ^ 2 + (rgb1.g - rgb2.g) ^ 2 + (rgb1.b - rgb2.b) ^ 2

/-- Model of the `InkColor` record (`types.ts`): full name, unique id and an
RGB triple (already converted from the stored BGR order at load time). -/
structure InkColor where
  fullname : String
  ink_id : String
  rgb : Rgb
  deriving DecidableEq, Repr

/-- An ink together with its distance to a search target, as built by
`findClosestInks` (`{...ink, distance}`).  The `idx` field records the ink's
position in the catalog iteration order; it is a modelling tag used to
express the stability of `Array.prototype.sort` (which is stable per the
ECMAScript specification) and carries no other information. -/
structure ScoredInk where
  ink : InkColor
  distance : ℤ
  idx : ℕ
  deriving DecidableEq, Repr

/-- Ordering used to model the stable JS sort
`distances.sort((a, b) => a.distance - b.distance)`: a stable sort by
distance of a list whose `idx` tags strictly increase is exactly a sort by
the lexicographic key (distance, catalog index). -/
def scoredLe (a b : ScoredInk) : Prop :=
  a.distance < b.distance ∨ (a.distance = b.distance ∧ a.idx ≤ b.idx)

instance : DecidableRel scoredLe := by
  unfold scoredLe; infer_instance

instance : IsTotal ScoredInk scoredLe where
  total a b := by unfold scoredLe; omega

instance : IsTrans ScoredInk scoredLe where
  trans a b c := by unfold scoredLe; omega

/-- Model of `findClosestInks` (`utils.ts`): attach the distance to the
target to every catalog entry, sort ascending by distance (stably, per JS
`Array.prototype.sort`), and return the first `maxResults` entries. -/
def findClosestInks (targetRgb : Rgb) (inkColors : List InkColor)
    (maxResults : ℕ) : List ScoredInk :=
  let distances := inkColors.enum.map
    (fun p => ⟨p.2, calculateColorDistanceSq targetRgb p.2.rgb, p.1⟩ : ℕ × InkColor → ScoredInk)
  (List.insertionSort scoredLe distances).take maxResults

/-- Model of `getColorFamily` (`utils.ts`): the exact decision chain, with
the tightened gray threshold 22, dominant-primary margin 20, secondary-blend
thresholds 150/100 and nuanced sub-classification margin 30. -/
def getColorFamily (rgb : Rgb) : String :=
  let r := rgb.r
  let g := rgb.g
  let b := rgb.b
  let maxv := max r (max g b)
  let minv := min r (min g b)
  if maxv - minv < 22 then "gray"
  else if r = maxv ∧ r > g + 20 ∧ r > b + 20 then "red"
  else if g = maxv ∧ g > r + 20 ∧ g > b + 20 then "green"
  else if b = maxv ∧ b > r + 20 ∧ b > g + 20 then "blue"
  else if r > 150 ∧ g > 150 ∧ b < 100 then "yellow"
  else if r > 150 ∧ b > 150 ∧ g < 100 then "magenta"
  else if g > 150 ∧ b > 150 ∧ r < 100 then "cyan"
  else if r > g ∧ r > b then
    (if g > b + 30 then "orange" else if b > g + 30 then "purple" else "red")
  else if g > r ∧ g > b then
    (if b > r + 30 then "teal" else if r > b + 30 then "yellow-green" else "green")
  else if b > r ∧ b > g then
    (if r > g + 30 then "purple" else if g > r + 30 then "blue-green" else "blue")
  else "mixed"

/-- Model of `rgbToHsl` (`utils.ts`): exact rational arithmetic version of
the standard RGB→HSL conversion, including the achromatic shortcut and the
`switch (max)` hue selection (which, like JS `switch`, takes the first
matching case when channels tie for the maximum). -/
def rgbToHsl (rgb : Rgb) : Hsl :=
  let r : ℚ := rgb.r / 255
  let g : ℚ := rgb.g / 255
  let b : ℚ := rgb.b / 255
  let maxv := max r (max g b)
  let minv := min r (min g b)
  let l := (maxv + minv) / 2
  if maxv = minv then ⟨0, 0, l⟩
  else
    let d := maxv - minv
    let s := if l > 1 / 2 then d / (2 - maxv - minv) else d / (maxv + minv)
    let h6 :=
      if maxv = r then (g - b) / d + (if g < b then 6 else 0)
      else if maxv = g then (b - r) / d + 2
      else (r - g) / d + 4
    ⟨h6 / 6 * 360, s, l⟩

/-- Model of JS `Math.round`: round half toward positive infinity. -/
def jsRound (q : ℚ) : ℤ :=
  ⌊q + 1 / 2⌋

/-- Model of the `hue2rgb` helper inside `hslToRgb` (`utils.ts`). -/
def hue2rgb (p q t : ℚ) : ℚ :=
  let t1 := if t < 0 then t + 1 else t
  let t2 := if t1 > 1 then t1 - 1 else t1
  if t2 < 1 / 6 then p + (q - p) * 6 * t2
  else if t2 < 1 / 2 then q
  else if t2 < 2 / 3 then p + (q - p) * (2 / 3 - t2) * 6
  else p

/-- Model of `hslToRgb` (`utils.ts`). -/
def hslToRgb (hsl : Hsl) : Rgb :=
  let h := hsl.h / 360
  let s := hsl.s
  let l := hsl.l
  if s = 0 then
    ⟨jsRound (l * 255), jsRound (l * 255), jsRound (l * 255)⟩
  else
    let q := if l < 1 / 2 then l * (1 + s) else l + s - l * s
    let p := 2 * l - q
    ⟨jsRound (hue2rgb p q (h + 1 / 3) * 255), jsRound (hue2rgb p q h * 255),
     jsRound (hue2rgb p q (h - 1 / 3) * 255)⟩

/-- Model of the JS remainder operator `%` on numbers (sign of the
dividend), used for the `(h + offset) % 360` hue arithmetic. -/
def jsMod (a b : ℚ) : ℚ :=
  if 0 ≤ a then a - b * ⌊a / b⌋ else a - b * ⌈a / b⌉

/-- Result of a JS property read `obj[key]` on an object literal: an own
property, a property inherited from `Object.prototype`, or `undefined`. -/
inductive JsProp (α : Type) where
  | own (a : α)
  | inherited
  | absent
  deriving DecidableEq, Repr

/-- Property names every object literal inherits from `Object.prototype`
(the ECMAScript built-ins); reads of these keys are truthy even though the
literal does not define them. -/
def objectPrototypeKeys : List String :=
  ["constructor", "hasOwnProperty", "isPrototypeOf", "propertyIsEnumerable",
   "toLocaleString", "toString", "valueOf", "__defineGetter__",
   "__defineSetter__", "__lookupGetter__", "__lookupSetter__", "__proto__"]

/-- Model of a JS property read `tbl[key]` on an object literal with the
given own string keys. -/
def jsGetProp {α : Type} (tbl : List (String × α)) (key : String) : JsProp α :=
  match tbl.find? (fun e => e.1 == key) with
  | some e => .own e.2
  | none => if objectPrototypeKeys.contains key then .inherited else .absent

/-- Hue-offset table built by `generateHarmonyColors` (`utils.ts`) for a
base hue `h`. -/
def harmonyHues (h : ℚ) : List (String × List ℚ) :=
  [("complementary", [h, jsMod (h + 180) 360]),
   ("analogous", [h, jsMod (h + 30) 360, jsMod (h + 330) 360]),
   ("triadic", [h, jsMod (h + 120) 360, jsMod (h + 240) 360]),
   ("split-complementary", [h, jsMod (h + 150) 360, jsMod (h + 210) 360])]

/-- Model of `generateHarmonyColors` (`utils.ts`):
`const hues = harmonyHues[harmony] || [h]; return hues.map(hue => [hue, s, l])`.
An own key yields its hue list; any other key falls back to `[h]` — except
the keys inherited from `Object.prototype`, whose truthy non-array values
make the subsequent `.map` call throw a `TypeError` (modelled as
`.error ()`).  The source has no failure path of its own: no
`UnknownHarmonyRule` (or any other) error is ever raised. -/
def generateHarmonyColors (baseHsl : Hsl) (harmony : String) :
    Except Unit (List Hsl) :=
  match jsGetProp (harmonyHues baseHsl.h) harmony with
  | .own hues => .ok (hues.map (fun hue => ⟨hue, baseHsl.s, baseHsl.l⟩))
  | .inherited => .error ()
  | .absent => .ok [⟨baseHsl.h, baseHsl.s, baseHsl.l⟩]

/-- Built-in theme table of `getColorPalette` (`index.ts`), verbatim. -/
def themeColors : List (String × List Rgb) :=
  [("warm", [⟨255, 100, 50⟩, ⟨255, 150, 0⟩, ⟨200, 80, 80⟩, ⟨180, 120, 60⟩, ⟨220, 180, 100⟩]),
   ("cool", [⟨50, 150, 255⟩, ⟨100, 200, 200⟩, ⟨150, 100, 255⟩, ⟨80, 180, 150⟩, ⟨120, 120, 200⟩]),
   ("neutral", [⟨140, 140, 140⟩, ⟨160, 160, 160⟩, ⟨120, 130, 125⟩, ⟨135, 125, 130⟩, ⟨125, 135, 140⟩]),
   ("earth", [⟨139, 69, 19⟩, ⟨160, 82, 45⟩, ⟨210, 180, 140⟩, ⟨107, 142, 35⟩, ⟨85, 107, 47⟩]),
   ("ocean", [⟨0, 119, 190⟩, ⟨0, 150, 136⟩, ⟨72, 201, 176⟩, ⟨135, 206, 235⟩, ⟨25, 25, 112⟩]),
   ("autumn", [⟨255, 140, 0⟩, ⟨255, 69, 0⟩, ⟨220, 20, 60⟩, ⟨184, 134, 11⟩, ⟨139, 69, 19⟩]),
   ("spring", [⟨154, 205, 50⟩, ⟨124, 252, 0⟩, ⟨173, 255, 47⟩, ⟨50, 205, 50⟩, ⟨0, 255, 127⟩]),
   ("summer", [⟨255, 235, 59⟩, ⟨255, 193, 7⟩, ⟨76, 175, 80⟩, ⟨139, 195, 74⟩, ⟨3, 169, 244⟩]),
   ("winter", [⟨224, 224, 224⟩, ⟨144, 164, 174⟩, ⟨96, 125, 139⟩, ⟨33, 150, 243⟩, ⟨0, 0, 128⟩]),
   ("pastel", [⟨255, 204, 204⟩, ⟨204, 255, 204⟩, ⟨204, 204, 255⟩, ⟨255, 255, 204⟩, ⟨255, 204, 255⟩]),
   ("vibrant", [⟨255, 0, 0⟩, ⟨0, 255, 0⟩, ⟨0, 0, 255⟩, ⟨255, 255, 0⟩, ⟨255, 0, 255⟩]),
   ("monochrome", [⟨255, 255, 255⟩, ⟨224, 224, 224⟩, ⟨192, 192, 192⟩, ⟨128, 128, 128⟩, ⟨64, 64, 64⟩, ⟨0, 0, 0⟩]),
   ("sunset", [⟨255, 224, 130⟩, ⟨255, 170, 85⟩, ⟨255, 110, 80⟩, ⟨200, 80, 120⟩, ⟨100, 60, 110⟩]),
   ("forest", [⟨34, 85, 34⟩, ⟨20, 60, 20⟩, ⟨60, 100, 60⟩, ⟨100, 140, 100⟩, ⟨140, 180, 140⟩]),
   ("warm-reds", [⟨200, 50, 50⟩, ⟨255, 100, 80⟩, ⟨220, 80, 60⟩, ⟨255, 130, 100⟩, ⟨180, 40, 40⟩]),
   ("cool-blues", [⟨50, 100, 200⟩, ⟨80, 150, 255⟩, ⟨100, 180, 230⟩, ⟨60, 120, 180⟩, ⟨40, 80, 160⟩]),
   ("neutral-grays", [⟨120, 120, 120⟩, ⟨140, 140, 140⟩, ⟨160, 160, 160⟩, ⟨100, 100, 100⟩, ⟨180, 180, 180⟩]),
   ("temperature-gradient", [⟨255, 80, 50⟩, ⟨255, 150, 100⟩, ⟨180, 180, 180⟩, ⟨100, 150, 200⟩, ⟨50, 100, 255⟩])]

/-- Failure values of the palette builder (`getColorPalette`, `index.ts`).
`unknownTheme` carries the list of valid built-in theme names embedded in
its message; `jsTypeError` models the uncaught `TypeError` raised when an
`Object.prototype`-inherited value is used as a target-color array. -/
inductive PaletteError where
  | invalidBaseColor
  | unknownTheme (available : List String)
  | invalidCustomPalette
  | jsTypeError
  deriving DecidableEq, Repr

/-- Greedy selection loop of `getColorPalette` (`index.ts` lines 645-658):
for each target color, take the top-5 nearest catalog inks, drop those whose
id was already used, and if any candidate remains pick the first, else skip
the target silently. -/
def paletteLoop (inkColors : List InkColor) : List Rgb → List String → List ScoredInk
  | [], _ => []
  | t :: ts, used =>
    match (findClosestInks t inkColors 5).filter
        (fun s => ! used.contains s.ink.ink_id) with
    | [] => paletteLoop inkColors ts used
    | s :: _ => s :: paletteLoop inkColors ts (s.ink.ink_id :: used)

/-- Model of `getColorPalette` (`index.ts`): resolve the theme argument into
a target-color list (harmony request, built-in theme, custom hex list, or
the `UnknownTheme` failure enumerating the built-in names), then run the
greedy deduplicating loop over the first `min(paletteSize, targets.length)`
targets.  The theme lookup `themeColors[lowerCaseTheme]` reads inherited
`Object.prototype` properties as themes: for `"__proto__"` the truthy value
has an `undefined` `length`, so `Math.min(size, undefined)` is NaN and the
loop body never runs (an empty palette is returned successfully); for
`"constructor"` the value has `length` 1 and an `undefined` element, so the
loop throws a `TypeError`. -/
def getColorPalette (theme : String) (paletteSize : ℕ) (harmony : Option String)
    (inkColors : List InkColor) : Except PaletteError (List ScoredInk) :=
  match harmony with
  | some rule =>
    match hexToRgb theme with
    | .error _ => .error .invalidBaseColor
    | .ok baseRgb =>
      match generateHarmonyColors (rgbToHsl baseRgb) rule with
      | .error _ => .error .invalidBaseColor
      | .ok harmonyHsl =>
        .ok (paletteLoop inkColors ((harmonyHsl.map hslToRgb).take paletteSize) [])
  | none =>
    match jsGetProp themeColors (jsToLowerString theme) with
    | .own targetColors => .ok (paletteLoop inkColors (targetColors.take paletteSize) [])
    | .inherited =>
      if jsToLowerString theme = "__proto__" then .ok [] else .error .jsTypeError
    | .absent =>
      if theme.startsWith "#" ∨ theme.contains ',' then
        match (theme.splitOn ",").mapM (fun seg => (hexToRgb seg.trim).toOption) with
        | none => .error .invalidCustomPalette
        | some targetColors => .ok (paletteLoop inkColors (targetColors.take paletteSize) [])
      else .error (.unknownTheme (themeColors.map (fun e => e.1)))

/-- Model of `calculateColorTemperature` (`utils.ts`): near-neutral colors
(`max - min < 15`) get a brightness-based temperature with no clamping;
chromatic colors get a hue-based base temperature adjusted by saturation and
lightness, rounded and clamped to `[2000, 8000]`. -/
def calculateColorTemperature (rgb : Rgb) : ℚ :=
  let maxv := max rgb.r (max rgb.g rgb.b)
  let minv := min rgb.r (min rgb.g rgb.b)
  if maxv - minv < 15 then
    let brightness : ℚ := (rgb.r + rgb.g + rgb.b) / 3
    4250 + (brightness - 255 / 2) * 3
  else
    let hsl := rgbToHsl rgb
    let hue := hsl.h
    let saturation := hsl.s
    let lightness := hsl.l
    let baseTemp : ℚ :=
      if 0 ≤ hue ∧ hue < 60 then 2800 + hue / 60 * 800
      else if 60 ≤ hue ∧ hue < 120 then 3600 + (hue - 60) / 60 * 1200
      else if 120 ≤ hue ∧ hue < 180 then 4800 + (hue - 120) / 60 * 1000
      else if 180 ≤ hue ∧ hue < 240 then 5800 + (hue - 180) / 60 * 800
      else if 240 ≤ hue ∧ hue < 300 then 6600 - (hue - 240) / 60 * 1600
      else 5000 - (hue - 300) / 60 * 1200
    let saturationBoost := saturation * (1 / 2)
    let adjusted :=
      if baseTemp < 4250 then baseTemp - saturationBoost * 800
      else baseTemp + saturationBoost * 1000
    let final := adjusted - (1 / 2 - lightness) * 400
    ((max 2000 (min 8000 (jsRound final)) : ℤ) : ℚ)

/-- Decidable equality for `Except` results, used to evaluate the embedded
fallible operations on concrete inputs. -/
instance {e a : Type} [DecidableEq e] [DecidableEq a] : DecidableEq (Except e a) := by
  intro x y
  cases x <;> cases y <;>
    first
      | exact isFalse (fun h => Except.noConfusion h)
      | exact decidable_of_iff _ (by rw [Except.error.injEq])
      | exact decidable_of_iff _ (by rw [Except.ok.injEq])

/-- C1 counterexample: on the unknown harmony rule `"tetradic"` the source
does not fail — `harmonyHues[harmony] || [h]` silently falls back and a
one-element sequence holding the base color is returned. -/
theorem generateHarmonyColors_unknown_rule_returns_base :
    generateHarmonyColors ⟨10, 1 / 2, 1 / 2⟩ "tetradic" =
      Except.ok [⟨10, 1 / 2, 1 / 2⟩] :=
  rfl

/-- C1 (amended): for every harmony-rule string outside the four fixed rules
(and outside the property names inherited from `Object.prototype`, whose
truthy values instead make the `.map` call throw a `TypeError`),
`generateHarmonyColors` does not fail with any error: it silently falls back
to the one-element sequence containing only the base color. -/
theorem generateHarmonyColors_silent_fallback :
    ∀ (baseHsl : Hsl) (rule : String),
      rule ∉ ["complementary", "analogous", "triadic", "split-complementary"] →
      rule ∉ objectPrototypeKeys →
      generateHarmonyColors baseHsl rule =
        Except.ok [⟨baseHsl.h, baseHsl.s, baseHsl.l⟩] := by
  intro base rule h4 hproto
  simp only [List.mem_cons, not_or] at h4
  obtain ⟨n1, n2, n3, n4, -⟩ := h4
  have m1 : ("complementary" == rule) = false := beq_eq_false_iff_ne.mpr (Ne.symm n1)
  have m2 : ("analogous" == rule) = false := beq_eq_false_iff_ne.mpr (Ne.symm n2)
  have m3 : ("triadic" == rule) = false := beq_eq_false_iff_ne.mpr (Ne.symm n3)
  have m4 : ("split-complementary" == rule) = false := beq_eq_false_iff_ne.mpr (Ne.symm n4)
  have hfind : (harmonyHues base.h).find? (fun e => e.1 == rule) = none := by
    simp [harmonyHues, List.find?, m1, m2, m3, m4]
  simp [generateHarmonyColors, jsGetProp, hfind, hproto]

/-- C1 witness: instantiation of the fallback theorem at the concrete
unknown rule `"tetradic"`. -/
theorem generateHarmonyColors_silent_fallback_witness :
    generateHarmonyColors ⟨10, 1 / 2, 1 / 2⟩ "tetradic" =
      Except.ok [⟨10, 1 / 2, 1 / 2⟩] ∧
      ("tetradic" : String) ∉ ["complementary", "analogous", "triadic", "split-complementary"] :=
  ⟨generateHarmonyColors_silent_fallback ⟨10, 1 / 2, 1 / 2⟩ "tetradic"
    (by decide) (by decide), by decide⟩

/-- C3: evaluation of the palette builder at the failing input
`theme = "__proto__"` (no harmony, any size, any catalog): the theme lookup
hits the inherited `__proto__` property of `Object.prototype`, so instead of
failing with the theme-list error the call succeeds with an empty palette. -/
theorem getColorPalette_proto_theme_no_error :
    ∀ (paletteSize : ℕ) (inkColors : List InkColor),
      getColorPalette "__proto__" paletteSize none inkColors = Except.ok [] :=
  fun _ _ => rfl

/-- Helper: an if-then-else of strings differs from `v` when both branches
do. -/
theorem ite_ne_of_branches {c : Prop} [Decidable c] {a b v : String}
    (ha : a ≠ v) (hb : b ≠ v) : (if c then a else b) ≠ v := by
  split
  · exact ha
  · exact hb

/-- Helper: when an if-then-else of strings equals `v` but its then-branch
cannot, the condition is false and the else-branch equals `v`. -/
theorem cond_false_of_ite_eq {c : Prop} [Decidable c] {a b v : String}
    (h : (if c then a else b) = v) (hav : a ≠ v) : ¬c ∧ b = v := by
  split at h
  · exact absurd h hav
  · rename_i hc
    exact ⟨hc, h⟩

/-- C6: `getColorFamily` returns `"gray"` exactly when the channel spread is
strictly below 22, and at the boundary `[100,100,121]` is gray while
`[100,100,122]` (spread exactly 22, blue dominant by exactly 22 > 20) is
classified `"blue"`. -/
theorem getColorFamily_gray_iff_threshold :
    (∀ c : Rgb, c.InRange →
        (getColorFamily c = "gray" ↔
          max c.r (max c.g c.b) - min c.r (min c.g c.b) < 22)) ∧
    getColorFamily ⟨100, 100, 121⟩ = "gray" ∧
    getColorFamily ⟨100, 100, 122⟩ = "blue" := by
  refine ⟨fun c _ => ?_, by norm_num [getColorFamily], by norm_num [getColorFamily]⟩
  simp only [getColorFamily]
  constructor
  · intro h
    by_contra hc
    rw [if_neg hc] at h
    refine ite_ne_of_branches (by decide) (ite_ne_of_branches (by decide)
      (ite_ne_of_branches (by decide) (ite_ne_of_branches (by decide)
        (ite_ne_of_branches (by decide) (ite_ne_of_branches (by decide)
          (ite_ne_of_branches
            (ite_ne_of_branches (by decide) (ite_ne_of_branches (by decide) (by decide)))
            (ite_ne_of_branches
              (ite_ne_of_branches (by decide) (ite_ne_of_branches (by decide) (by decide)))
              (ite_ne_of_branches
                (ite_ne_of_branches (by decide) (ite_ne_of_branches (by decide) (by decide)))
                (by decide))))))))) h
  · intro h
    rw [if_pos h]

/-- C6 witness: the gray-threshold equivalence instantiated at the concrete
in-range triple `[10, 20, 30]`. -/
theorem getColorFamily_gray_iff_threshold_witness :
    getColorFamily ⟨10, 20, 30⟩ = "gray" ↔
      max (10 : ℤ) (max 20 30) - min (10 : ℤ) (min 20 30) < 22 :=
  getColorFamily_gray_iff_threshold.1 ⟨10, 20, 30⟩ (by decide)

/-- C7 counterexample: `"mixed"` is reachable — on `[200, 200, 100]` every
earlier rule fails (spread 100 is not gray; no channel strictly dominates;
the secondary-blend guards fail since the blue channel is 100) and
`getColorFamily` returns `"mixed"`. -/
theorem getColorFamily_mixed_reachable :
    getColorFamily ⟨200, 200, 100⟩ = "mixed" := by
  norm_num [getColorFamily]

/-- C7 (amended): the final `"mixed"` result of `classifyFamily` is
reachable — e.g. at `[200, 200, 100]` — but only when no channel is strictly
greater than both others: whenever `"mixed"` is returned, at least two
channels are exactly equal, yet not all three (the all-equal case is caught
by the gray rule), and the channel spread is at least 22. -/
theorem getColorFamily_mixed_two_channels_equal :
    ∀ c : Rgb, getColorFamily c = "mixed" →
      (c.r = c.g ∨ c.g = c.b ∨ c.r = c.b) ∧
      ¬(c.r = c.g ∧ c.g = c.b) ∧
      22 ≤ max c.r (max c.g c.b) - min c.r (min c.g c.b) := by
  intro c h0
  simp only [getColorFamily] at h0
  obtain ⟨hn1, h⟩ := cond_false_of_ite_eq h0 (by decide)
  obtain ⟨hn2, h⟩ := cond_false_of_ite_eq h (by decide)
  obtain ⟨hn3, h⟩ := cond_false_of_ite_eq h (by decide)
  obtain ⟨hn4, h⟩ := cond_false_of_ite_eq h (by decide)
  obtain ⟨hn5, h⟩ := cond_false_of_ite_eq h (by decide)
  obtain ⟨hn6, h⟩ := cond_false_of_ite_eq h (by decide)
  obtain ⟨hn7, h⟩ := cond_false_of_ite_eq h (by decide)
  obtain ⟨hn8, h⟩ := cond_false_of_ite_eq h
    (ite_ne_of_branches (by decide) (ite_ne_of_branches (by decide) (by decide)))
  obtain ⟨hn9, h⟩ := cond_false_of_ite_eq h
    (ite_ne_of_branches (by decide) (ite_ne_of_branches (by decide) (by decide)))
  obtain ⟨hn10, h⟩ := cond_false_of_ite_eq h
    (ite_ne_of_branches (by decide) (ite_ne_of_branches (by decide) (by decide)))
  clear h h0
  refine ⟨?_, ?_, ?_⟩
  · clear hn1 hn2 hn3 hn4 hn5 hn6 hn7
    omega
  · clear hn2 hn3 hn4 hn5 hn6 hn7 hn8 hn9 hn10
    omega
  · clear hn2 hn3 hn4 hn5 hn6 hn7 hn8 hn9 hn10
    omega

/-- C7 witness: the amended theorem instantiated at the concrete input
`[200, 200, 100]`. -/
theorem getColorFamily_mixed_two_channels_equal_witness :
    ((200 : ℤ) = 200 ∨ (200 : ℤ) = 100 ∨ (200 : ℤ) = 100) ∧
      ¬((200 : ℤ) = 200 ∧ (200 : ℤ) = 100) ∧
      22 ≤ max (200 : ℤ) (max 200 100) - min (200 : ℤ) (min 200 100) :=
  getColorFamily_mixed_two_channels_equal ⟨200, 200, 100⟩
    (by norm_num [getColorFamily])

/-- C10: `calculateColorTemperature` always lands in `[2000, 8000]` for
in-range channels — the chromatic branch by its explicit clamp, and the
unclamped low-saturation branch because `4250 + (mean − 127.5)·3` ranges
only over `[3867.5, 4632.5]`. -/
theorem calculateColorTemperature_in_range :
    ∀ c : Rgb, c.InRange →
      2000 ≤ calculateColorTemperature c ∧ calculateColorTemperature c ≤ 8000 := by
  intro c h
  obtain ⟨h1, h2, h3, h4, h5, h6⟩ := h
  have e1 : ((c.r : ℚ)) ≤ 255 := by exact_mod_cast h2
  have e2 : ((c.g : ℚ)) ≤ 255 := by exact_mod_cast h4
  have e3 : ((c.b : ℚ)) ≤ 255 := by exact_mod_cast h6
  have e4 : (0 : ℚ) ≤ (c.r : ℚ) := by exact_mod_cast h1
  have e5 : (0 : ℚ) ≤ (c.g : ℚ) := by exact_mod_cast h3
  have e6 : (0 : ℚ) ≤ (c.b : ℚ) := by exact_mod_cast h5
  simp only [calculateColorTemperature]
  split_ifs with hgray
  · constructor <;> linarith
  all_goals
    exact ⟨by exact_mod_cast le_max_left _ _,
           by exact_mod_cast max_le (by norm_num) (min_le_left _ _)⟩

/-- C10 witness: the temperature bound instantiated at the concrete in-range
gray input `[100, 100, 100]` (which takes the unclamped branch). -/
theorem calculateColorTemperature_in_range_witness :
    2000 ≤ calculateColorTemperature ⟨100, 100, 100⟩ ∧
      calculateColorTemperature ⟨100, 100, 100⟩ ≤ 8000 :=
  calculateColorTemperature_in_range ⟨100, 100, 100⟩ (by decide)

/-- Helper: the index tags of the scored list built by `findClosestInks`
form the range `0, …, catalog.length - 1`. -/
theorem findClosestInks_map_idx (targetRgb : Rgb) (inkColors : List InkColor) :
    (inkColors.enum.map
        (fun p => (⟨p.2, calculateColorDistanceSq targetRgb p.2.rgb, p.1⟩ : ScoredInk))).map
      (fun s => s.idx) = List.range inkColors.length := by
  rw [List.map_map]
  have : ((fun s : ScoredInk => s.idx) ∘
      (fun p : ℕ × InkColor => (⟨p.2, calculateColorDistanceSq targetRgb p.2.rgb, p.1⟩ : ScoredInk)))
      = Prod.fst := rfl
  rw [this, List.enum_map_fst]

/-- C5: `findClosestInks` returns exactly `min(maxResults, catalog.length)`
entries, in non-decreasing distance order, with distance ties broken by
catalog iteration order (the `idx` tag records the catalog position; JS
`Array.prototype.sort` is stable, so a tie keeps the earlier catalog entry
first), and every returned distance is the distance from the target to that
entry's color. -/
theorem findClosestInks_sorted_length_ties :
    ∀ (targetRgb : Rgb) (inkColors : List InkColor) (n : ℕ), 0 < n →
      (findClosestInks targetRgb inkColors n).length = min n inkColors.length ∧
      List.Pairwise (fun a b : ScoredInk => a.distance ≤ b.distance)
        (findClosestInks targetRgb inkColors n) ∧
      List.Pairwise (fun a b : ScoredInk =>
          a.distance < b.distance ∨ (a.distance = b.distance ∧ a.idx < b.idx))
        (findClosestInks targetRgb inkColors n) ∧
      ∀ s ∈ findClosestInks targetRgb inkColors n,
        s.distance = calculateColorDistanceSq targetRgb s.ink.rgb := by
  intro targetRgb inkColors n _
  simp only [findClosestInks]
  set f : ℕ × InkColor → ScoredInk :=
    fun p => ⟨p.2, calculateColorDistanceSq targetRgb p.2.rgb, p.1⟩ with hf
  set distances := inkColors.enum.map f with hdist
  have hperm : List.Perm (List.insertionSort scoredLe distances) distances :=
    List.perm_insertionSort scoredLe distances
  have hsorted : List.Sorted scoredLe (List.insertionSort scoredLe distances) :=
    List.sorted_insertionSort scoredLe distances
  have hsortedTake :
      List.Pairwise scoredLe ((List.insertionSort scoredLe distances).take n) :=
    List.Pairwise.sublist (List.take_sublist n _) hsorted
  have hnodupIdx : ((List.insertionSort scoredLe distances).map (fun s => s.idx)).Nodup := by
    rw [(hperm.map (fun s => s.idx)).nodup_iff, hdist, findClosestInks_map_idx]
    exact List.nodup_range _
  have hnodupTake :
      (((List.insertionSort scoredLe distances).take n).map (fun s => s.idx)).Nodup := by
    rw [List.map_take]
    exact List.Nodup.sublist (List.take_sublist n _) hnodupIdx
  have hneIdx : List.Pairwise (fun a b : ScoredInk => a.idx ≠ b.idx)
      ((List.insertionSort scoredLe distances).take n) :=
    (List.pairwise_map.mp hnodupTake)
  refine ⟨?_, ?_, ?_, ?_⟩
  · rw [List.length_take, hperm.length_eq, hdist, List.length_map, List.enum_length]
  · exact hsortedTake.imp (fun hab => by
      rcases hab with h | ⟨h, -⟩
      · exact le_of_lt h
      · exact le_of_eq h)
  · exact (hsortedTake.and hneIdx).imp (fun hab => by
      rcases hab with ⟨h | ⟨heq, hle⟩, hne⟩
      · exact Or.inl h
      · exact Or.inr ⟨heq, lt_of_le_of_ne hle hne⟩)
  · intro s hs
    have hmem : s ∈ distances :=
      hperm.mem_iff.mp ((List.take_sublist n _).subset hs)
    rw [hdist] at hmem
    obtain ⟨p, -, hp⟩ := List.mem_map.mp hmem
    rw [← hp]

/-- C5 witness: the nearest-neighbor theorem instantiated on a concrete
three-ink catalog with a distance tie between the first and third entries,
requesting the top 2. -/
theorem findClosestInks_sorted_length_ties_witness :
    (findClosestInks ⟨1, 0, 0⟩
        [⟨"a", "a", ⟨0, 0, 0⟩⟩, ⟨"b", "b", ⟨0, 0, 2⟩⟩, ⟨"c", "c", ⟨2, 0, 0⟩⟩] 2).length =
      min 2 3 ∧
    List.Pairwise (fun a b : ScoredInk => a.distance ≤ b.distance)
      (findClosestInks ⟨1, 0, 0⟩
        [⟨"a", "a", ⟨0, 0, 0⟩⟩, ⟨"b", "b", ⟨0, 0, 2⟩⟩, ⟨"c", "c", ⟨2, 0, 0⟩⟩] 2) ∧
    List.Pairwise (fun a b : ScoredInk =>
        a.distance < b.distance ∨ (a.distance = b.distance ∧ a.idx < b.idx))
      (findClosestInks ⟨1, 0, 0⟩
        [⟨"a", "a", ⟨0, 0, 0⟩⟩, ⟨"b", "b", ⟨0, 0, 2⟩⟩, ⟨"c", "c", ⟨2, 0, 0⟩⟩] 2) ∧
    ∀ s ∈ findClosestInks ⟨1, 0, 0⟩
        [⟨"a", "a", ⟨0, 0, 0⟩⟩, ⟨"b", "b", ⟨0, 0, 2⟩⟩, ⟨"c", "c", ⟨2, 0, 0⟩⟩] 2,
      s.distance = calculateColorDistanceSq ⟨1, 0, 0⟩ s.ink.rgb :=
  findClosestInks_sorted_length_ties ⟨1, 0, 0⟩
    [⟨"a", "a", ⟨0, 0, 0⟩⟩, ⟨"b", "b", ⟨0, 0, 2⟩⟩, ⟨"c", "c", ⟨2, 0, 0⟩⟩] 2
    (by decide)

/-- Helper: the greedy palette loop never repeats an ink id, never picks an
id from the exclusion list, and returns at most one ink per target. -/
theorem paletteLoop_invariant (inkColors : List InkColor) :
    ∀ (ts : List Rgb) (used : List String),
      ((paletteLoop inkColors ts used).map (fun s => s.ink.ink_id)).Nodup ∧
      (∀ i ∈ (paletteLoop inkColors ts used).map (fun s => s.ink.ink_id),
        used.contains i = false) ∧
      (paletteLoop inkColors ts used).length ≤ ts.length := by
  intro ts
  induction ts with
  | nil => intro used; simp [paletteLoop]
  | cons t ts ih =>
    intro used
    cases hfil : (findClosestInks t inkColors 5).filter
        (fun s => ! used.contains s.ink.ink_id) with
    | nil =>
      simp only [paletteLoop, hfil]
      obtain ⟨ih1, ih2, ih3⟩ := ih used
      exact ⟨ih1, ih2, le_trans ih3 (Nat.le_succ _)⟩
    | cons s rest =>
      have hs : s ∈ (findClosestInks t inkColors 5).filter
          (fun s => ! used.contains s.ink.ink_id) := by
        rw [hfil]; exact List.mem_cons_self _ _
      have hsu : used.contains s.ink.ink_id = false := by
        have := (List.mem_filter.mp hs).2
        simpa using this
      simp only [paletteLoop, hfil]
      obtain ⟨ih1, ih2, ih3⟩ := ih (s.ink.ink_id :: used)
      refine ⟨?_, ?_, ?_⟩
      · rw [List.map_cons, List.nodup_cons]
        refine ⟨fun hmem => ?_, ih1⟩
        have hcontra := ih2 _ hmem
        rw [List.contains_cons] at hcontra
        simp at hcontra
      · intro i hi
        rw [List.map_cons, List.mem_cons] at hi
        rcases hi with hi | hi
        · rw [hi]; exact hsu
        · have := ih2 _ hi
          rw [List.contains_cons] at this
          simp only [Bool.or_eq_false_iff] at this
          exact this.2
      · rw [List.length_cons]
        exact Nat.succ_le_succ ih3

/-- C2: palette construction never returns the same catalog id twice, and a
target whose every candidate was already used is skipped silently, so the
output length never exceeds `min(size, number of resolved targets)` (the
greedy loop runs over the first `min(size, targets.length)` resolved
targets); consequently every successful `getColorPalette` call yields a
duplicate-free palette of at most `size` inks. -/
theorem paletteLoop_dedup_and_length :
    (∀ (inkColors : List InkColor) (targets : List Rgb) (paletteSize : ℕ),
        ((paletteLoop inkColors (targets.take paletteSize) []).map
            (fun s => s.ink.ink_id)).Nodup ∧
        (paletteLoop inkColors (targets.take paletteSize) []).length ≤
          min paletteSize targets.length) ∧
    (∀ (theme : String) (paletteSize : ℕ) (harmony : Option String)
        (inkColors : List InkColor) (out : List ScoredInk),
        getColorPalette theme paletteSize harmony inkColors = Except.ok out →
        (out.map (fun s => s.ink.ink_id)).Nodup ∧ out.length ≤ paletteSize) := by
  have hloop : ∀ (inkColors : List InkColor) (targets : List Rgb) (size : ℕ),
      ((paletteLoop inkColors (targets.take size) []).map
          (fun s => s.ink.ink_id)).Nodup ∧
      (paletteLoop inkColors (targets.take size) []).length ≤ min size targets.length := by
    intro inkColors targets size
    obtain ⟨h1, -, h3⟩ := paletteLoop_invariant inkColors (targets.take size) []
    exact ⟨h1, by rw [List.length_take] at h3; exact h3⟩
  refine ⟨hloop, ?_⟩
  intro theme size harmony inkColors out h
  have hsz : ∀ targets : List Rgb,
      Except.ok (ε := PaletteError) (paletteLoop inkColors (targets.take size) []) =
        Except.ok out →
      (out.map (fun s => s.ink.ink_id)).Nodup ∧ out.length ≤ size := by
    intro targets heq
    obtain ⟨h1, h2⟩ := hloop inkColors targets size
    cases heq
    exact ⟨h1, le_trans h2 (min_le_left _ _)⟩
  cases harmony with
  | some rule =>
    simp only [getColorPalette] at h
    split at h
    · cases h
    · split at h
      · cases h
      · exact hsz _ h
  | none =>
    simp only [getColorPalette] at h
    split at h
    · exact hsz _ h
    · split at h
      · cases h
        simp
      · cases h
    · split at h
      · split at h
        · cases h
        · exact hsz _ h
      · cases h

/-- C2 witness: the `getColorPalette`-level conjunct instantiated at the
built-in theme `"vibrant"` with size 2 over the empty catalog (every target
is skipped, the empty result is duplicate-free and within the bound). -/
theorem paletteLoop_dedup_and_length_witness :
    (([] : List ScoredInk).map (fun s => s.ink.ink_id)).Nodup ∧
      ([] : List ScoredInk).length ≤ 2 :=
  paletteLoop_dedup_and_length.2 "vibrant" 2 none [] [] rfl

/-- C4 counterexample: `hexToRgb` does not fail on non-hex characters — the
six-character input `"#zzzzzz"` passes the length check, `parseInt` consumes
no digit (NaN), the bitwise extraction treats NaN as 0, and the call
succeeds with `[0, 0, 0]`. -/
theorem hexToRgb_nonhex_no_error :
    hexToRgb "#zzzzzz" = Except.ok ⟨0, 0, 0⟩ :=
  rfl

/-- C4 (amended): `hexToTriplet` fails with `InvalidFormat` exactly when,
after stripping an optional leading `#`, the remaining string does not have
length 6 — wrong length is the only failure.  A 6-character string with
non-hex characters does not fail: `parseInt` prefix-parsing (NaN read as 0)
still yields a triplet, and every returned triplet has channels in
`[0, 255]`. -/
theorem hexToRgb_fails_iff_wrong_length :
    ∀ h : String,
      ((∃ e, hexToRgb h = Except.error e) ↔ (stripHash h).data.length ≠ 6) ∧
      (∀ t, hexToRgb h = Except.ok t → t.InRange) := by
  intro hstr
  simp only [hexToRgb]
  by_cases hlen : (stripHash hstr).data.length ≠ 6
  · rw [if_pos hlen]
    exact ⟨iff_of_true ⟨_, rfl⟩ hlen, fun t ht => by cases ht⟩
  · rw [if_neg hlen]
    refine ⟨iff_of_false (fun ⟨e, he⟩ => by cases he) hlen, fun t ht => ?_⟩
    cases ht
    simp only [Rgb.InRange]
    refine ⟨by omega, by omega, by omega, by omega, by omega, by omega⟩

/-- C4 witness: the amended theorem applied at the concrete non-hex input
`"#zzzzzz"`, discharging the success hypothesis by evaluation. -/
theorem hexToRgb_fails_iff_wrong_length_witness :
    Rgb.InRange ⟨0, 0, 0⟩ :=
  (hexToRgb_fails_iff_wrong_length "#zzzzzz").2 ⟨0, 0, 0⟩ rfl

/-- Helper: the digit value returned by `hexVal?`, when defined, is the
value of the character in one of the three code ranges. -/
theorem hexValN_cases (n : ℕ) (h : (hexVal? n).isSome = true) :
    (48 ≤ n ∧ n ≤ 57 ∧ hexValN n = n - 48) ∨
    (65 ≤ n ∧ n ≤ 70 ∧ hexValN n = n - 55) ∨
    (97 ≤ n ∧ n ≤ 102 ∧ hexValN n = n - 87) := by
  by_cases h1 : 48 ≤ n ∧ n ≤ 57
  · refine Or.inl ⟨h1.1, h1.2, ?_⟩
    unfold hexValN hexVal?
    rw [if_pos h1]
    rfl
  · by_cases h2 : 65 ≤ n ∧ n ≤ 70
    · refine Or.inr (Or.inl ⟨h2.1, h2.2, ?_⟩)
      unfold hexValN hexVal?
      rw [if_neg h1, if_pos h2]
      rfl
    · by_cases h3 : 97 ≤ n ∧ n ≤ 102
      · refine Or.inr (Or.inr ⟨h3.1, h3.2, ?_⟩)
        unfold hexValN hexVal?
        rw [if_neg h1, if_neg h2, if_pos h3]
        rfl
      · exfalso
        unfold hexVal? at h
        rw [if_neg h1, if_neg h2, if_neg h3] at h
        simp at h

/-- Helper: a hexadecimal digit character is not `parseInt` whitespace. -/
theorem hexDigit_not_ws (c : Char) (h : isHexDigitChar c = true) :
    isJsWhitespace c = false := by
  unfold isHexDigitChar at h
  have := hexValN_cases c.toNat h
  unfold isJsWhitespace
  simp only [decide_eq_false_iff_not]
  omega

/-- Helper: a hexadecimal digit character is none of the special characters
consumed by `parseInt` before the digit run. -/
theorem hexDigit_not_special (c : Char) (h : isHexDigitChar c = true) :
    c ≠ '-' ∧ c ≠ '+' ∧ c ≠ 'x' ∧ c ≠ 'X' := by
  refine ⟨fun he => ?_, fun he => ?_, fun he => ?_, fun he => ?_⟩ <;>
    (subst he; exact absurd h (by decide))

/-- Helper: hexadecimal digit values are below 16. -/
theorem hexValN_lt_16 (c : Char) (h : isHexDigitChar c = true) :
    hexValN c.toNat < 16 := by
  unfold isHexDigitChar at h
  have := hexValN_cases c.toNat h
  omega

/-- Helper: rendering the value of a hexadecimal digit character reproduces
that character lowercased (uppercase digits move down by 32, all others are
fixed). -/
theorem hexDigitChar_eq_lower (c : Char) (h : isHexDigitChar c = true) :
    hexDigitChar (hexValN c.toNat) = jsToLowerChar c := by
  unfold isHexDigitChar at h
  unfold hexDigitChar jsToLowerChar
  congr 1
  have := hexValN_cases c.toNat h
  unfold jsLowerCode
  rcases this with ⟨ha, hb, hv⟩ | ⟨ha, hb, hv⟩ | ⟨ha, hb, hv⟩ <;>
    rw [hv] <;> split_ifs <;> omega

/-- Helper: a list of length 6 is a six-element list literal. -/
theorem list_eq_six {α : Type} : ∀ (l : List α), l.length = 6 →
    ∃ a b c d e f, l = [a, b, c, d, e, f]
  | [], h => by simp only [List.length_nil] at h; omega
  | [a], h => by simp only [List.length_cons, List.length_nil] at h; omega
  | [a, b], h => by simp only [List.length_cons, List.length_nil] at h; omega
  | [a, b, c], h => by simp only [List.length_cons, List.length_nil] at h; omega
  | [a, b, c, d], h => by simp only [List.length_cons, List.length_nil] at h; omega
  | [a, b, c, d, e], h => by simp only [List.length_cons, List.length_nil] at h; omega
  | [a, b, c, d, e, f], _ => ⟨a, b, c, d, e, f, rfl⟩
  | a :: b :: c :: d :: e :: f :: g :: t, h => by
    simp only [List.length_cons, List.length_nil] at h; omega

/-- Helper: `parseInt` on exactly six hexadecimal digit characters consumes
all of them and returns the radix-16 value. -/
theorem parseHexDigits_six (c0 c1 c2 c3 c4 c5 : Char)
    (h0 : isHexDigitChar c0 = true) (h1 : isHexDigitChar c1 = true)
    (h2 : isHexDigitChar c2 = true) (h3 : isHexDigitChar c3 = true)
    (h4 : isHexDigitChar c4 = true) (h5 : isHexDigitChar c5 = true) :
    parseHexDigits [c0, c1, c2, c3, c4, c5] =
      some (16 * (16 * (16 * (16 * (16 * (16 * 0 + hexValN c0.toNat)
        + hexValN c1.toNat) + hexValN c2.toNat) + hexValN c3.toNat)
        + hexValN c4.toNat) + hexValN c5.toNat) := by
  have hno : ¬(c0 = '0' ∧ (c1 = 'x' ∨ c1 = 'X')) := by
    rintro ⟨-, hx | hx⟩
    · exact (hexDigit_not_special c1 h1).2.2.1 hx
    · exact (hexDigit_not_special c1 h1).2.2.2 hx
  have hallsix : ∀ x ∈ [c0, c1, c2, c3, c4, c5], isHexDigitChar x = true := by
    intro x hx
    simp only [List.mem_cons, List.not_mem_nil, or_false] at hx
    rcases hx with rfl | rfl | rfl | rfl | rfl | rfl <;> assumption
  simp only [parseHexDigits]
  rw [if_neg hno, List.takeWhile_eq_self_iff.mpr hallsix]
  simp [List.foldl_cons, List.foldl_nil]

/-- Helper: `parseInt` with radix 16 on a six-hex-digit string. -/
theorem jsParseIntHex_six (s : String) (c0 c1 c2 c3 c4 c5 : Char)
    (hdata : s.data = [c0, c1, c2, c3, c4, c5])
    (h0 : isHexDigitChar c0 = true) (h1 : isHexDigitChar c1 = true)
    (h2 : isHexDigitChar c2 = true) (h3 : isHexDigitChar c3 = true)
    (h4 : isHexDigitChar c4 = true) (h5 : isHexDigitChar c5 = true) :
    jsParseIntHex s =
      some ((16 * (16 * (16 * (16 * (16 * (16 * 0 + hexValN c0.toNat)
        + hexValN c1.toNat) + hexValN c2.toNat) + hexValN c3.toNat)
        + hexValN c4.toNat) + hexValN c5.toNat : ℕ) : ℤ) := by
  unfold jsParseIntHex
  rw [hdata]
  rw [List.dropWhile_cons, hexDigit_not_ws c0 h0]
  simp only [Bool.false_eq_true, if_false]
  rw [if_neg (hexDigit_not_special c0 h0).1, if_neg (hexDigit_not_special c0 h0).2.1]
  rw [parseHexDigits_six c0 c1 c2 c3 c4 c5 h0 h1 h2 h3 h4 h5]
  rfl

/-- Helper: `rgbToHex` on an explicit triple, unfolded. -/
theorem rgbToHex_mk (x y z : ℤ) :
    rgbToHex ⟨x, y, z⟩ = String.mk ('#' :: hexDigits6 (x * 65536 + y * 256 + z).toNat) :=
  rfl

/-- Helper: prepending `#` to a string is consing `'#'` to its characters. -/
theorem hash_append (l : List Char) : "#" ++ String.mk l = String.mk ('#' :: l) :=
  rfl

/-- C8: decoding a valid 6-digit hex string (optional `#`) and re-encoding
the triple yields the input normalized to lowercase with a `#` prefix, and
encoding any in-range triple always produces `#` followed by exactly six
lowercase zero-padded hex digits. -/
theorem rgbToHex_hexToRgb_roundtrip :
    (∀ h : String, ValidHex6 h →
        ∃ t, hexToRgb h = Except.ok t ∧
          rgbToHex t = "#" ++ jsToLowerString (stripHash h)) ∧
    (∀ c : Rgb, c.InRange →
        ∃ cs, (rgbToHex c).data = '#' :: cs ∧ cs.length = 6 ∧
          ∀ ch ∈ cs, isLowerHexDigit ch = true) := by
  constructor
  · intro hstr hvalid
    obtain ⟨hlen, hall⟩ := hvalid
    obtain ⟨c0, c1, c2, c3, c4, c5, hdata⟩ := list_eq_six _ hlen
    have h0 : isHexDigitChar c0 = true := hall c0 (by rw [hdata]; simp)
    have h1 : isHexDigitChar c1 = true := hall c1 (by rw [hdata]; simp)
    have h2 : isHexDigitChar c2 = true := hall c2 (by rw [hdata]; simp)
    have h3 : isHexDigitChar c3 = true := hall c3 (by rw [hdata]; simp)
    have h4 : isHexDigitChar c4 = true := hall c4 (by rw [hdata]; simp)
    have h5 : isHexDigitChar c5 = true := hall c5 (by rw [hdata]; simp)
    have b0 : hexValN c0.toNat < 16 := hexValN_lt_16 c0 h0
    have b1 : hexValN c1.toNat < 16 := hexValN_lt_16 c1 h1
    have b2 : hexValN c2.toNat < 16 := hexValN_lt_16 c2 h2
    have b3 : hexValN c3.toNat < 16 := hexValN_lt_16 c3 h3
    have b4 : hexValN c4.toNat < 16 := hexValN_lt_16 c4 h4
    have b5 : hexValN c5.toNat < 16 := hexValN_lt_16 c5 h5
    have hparse := jsParseIntHex_six (stripHash hstr) c0 c1 c2 c3 c4 c5 hdata
      h0 h1 h2 h3 h4 h5
    set v : ℕ := 16 * (16 * (16 * (16 * (16 * (16 * 0 + hexValN c0.toNat)
      + hexValN c1.toNat) + hexValN c2.toNat) + hexValN c3.toNat)
      + hexValN c4.toNat) + hexValN c5.toNat with hv
    have hu : jsToUint32 (jsParseIntHex (stripHash hstr)) = v := by
      rw [hparse]
      show ((v : ℤ) % 4294967296).toNat = v
      omega
    have hok : hexToRgb hstr = Except.ok
        ⟨((v / 65536) % 256 : ℕ), ((v / 256) % 256 : ℕ), (v % 256 : ℕ)⟩ := by
      unfold hexToRgb
      rw [if_neg (by omega), hu]
    refine ⟨_, hok, ?_⟩
    rw [rgbToHex_mk]
    have hn : ((((v / 65536) % 256 : ℕ) : ℤ) * 65536 + (((v / 256) % 256 : ℕ) : ℤ) * 256
        + ((v % 256 : ℕ) : ℤ)).toNat = v := by
      omega
    rw [hn]
    unfold jsToLowerString
    rw [hdata, hash_append]
    simp only [List.map_cons, List.map_nil]
    unfold hexDigits6
    have n0 : v / 1048576 % 16 = hexValN c0.toNat := by omega
    have n1 : v / 65536 % 16 = hexValN c1.toNat := by omega
    have n2 : v / 4096 % 16 = hexValN c2.toNat := by omega
    have n3 : v / 256 % 16 = hexValN c3.toNat := by omega
    have n4 : v / 16 % 16 = hexValN c4.toNat := by omega
    have n5 : v % 16 = hexValN c5.toNat := by omega
    rw [n0, n1, n2, n3, n4, n5, hexDigitChar_eq_lower c0 h0,
      hexDigitChar_eq_lower c1 h1, hexDigitChar_eq_lower c2 h2,
      hexDigitChar_eq_lower c3 h3, hexDigitChar_eq_lower c4 h4,
      hexDigitChar_eq_lower c5 h5]
  · intro c _
    refine ⟨hexDigits6 (c.r * 65536 + c.g * 256 + c.b).toNat, rfl, rfl, ?_⟩
    intro ch hch
    have hlt : ∀ d : ℕ, d < 16 → isLowerHexDigit (hexDigitChar d) = true := by decide
    simp only [hexDigits6, List.mem_cons, List.not_mem_nil, or_false] at hch
    rcases hch with rfl | rfl | rfl | rfl | rfl | rfl <;>
      exact hlt _ (Nat.mod_lt _ (by norm_num))

/-- C8 witness: the round trip instantiated at the concrete valid input
`"#FF5733"`. -/
theorem rgbToHex_hexToRgb_roundtrip_witness :
    ∃ t, hexToRgb "#FF5733" = Except.ok t ∧
      rgbToHex t = "#" ++ jsToLowerString (stripHash "#FF5733") :=
  rgbToHex_hexToRgb_roundtrip.1 "#FF5733" (by decide)

/-- Helper: `Math.round` of an integer value is that integer. -/
theorem jsRound_intCast (n : ℤ) : jsRound ((n : ℚ)) = n := by
  unfold jsRound
  rw [Int.floor_eq_iff]
  refine ⟨by linarith, by linarith⟩

/-- Helper: `hue2rgb` on the rising segment `t = u/6`, `u ∈ [0, 1]`. -/
theorem hue2rgb_seg_up (p q u : ℚ) (h0 : 0 ≤ u) (h1 : u ≤ 1) :
    hue2rgb p q (u / 6) = p + (q - p) * u := by
  simp only [hue2rgb]
  rw [if_neg (by linarith : ¬(u / 6 < 0))]
  rw [if_neg (by linarith : ¬(u / 6 > 1))]
  rcases lt_or_ge u 1 with hu | hu
  · rw [if_pos (by linarith : u / 6 < 1 / 6)]
    ring
  · have hu1 : u = 1 := le_antisymm h1 hu
    subst hu1
    rw [if_neg (by norm_num), if_pos (by norm_num)]
    ring

/-- Helper: `hue2rgb` on the plateau `t = u/6 + 1/3`, `u ∈ [-1, 1]`. -/
theorem hue2rgb_seg_top (p q u : ℚ) (h0 : -1 ≤ u) (h1 : u ≤ 1) :
    hue2rgb p q (u / 6 + 1 / 3) = q := by
  simp only [hue2rgb]
  rw [if_neg (by linarith : ¬(u / 6 + 1 / 3 < 0))]
  rw [if_neg (by linarith : ¬(u / 6 + 1 / 3 > 1))]
  rw [if_neg (by linarith : ¬(u / 6 + 1 / 3 < 1 / 6))]
  rcases lt_or_ge u 1 with hu | hu
  · rw [if_pos (by linarith : u / 6 + 1 / 3 < 1 / 2)]
  · have hu1 : u = 1 := le_antisymm h1 hu
    subst hu1
    rw [if_neg (by norm_num), if_pos (by norm_num)]
    ring

/-- Helper: `hue2rgb` on the falling segment `t = u/6 + 2/3`, `u ∈ [-1, 0]`. -/
theorem hue2rgb_seg_down (p q u : ℚ) (h0 : -1 ≤ u) (h1 : u ≤ 0) :
    hue2rgb p q (u / 6 + 2 / 3) = p - (q - p) * u := by
  simp only [hue2rgb]
  rw [if_neg (by linarith : ¬(u / 6 + 2 / 3 < 0))]
  rw [if_neg (by linarith : ¬(u / 6 + 2 / 3 > 1))]
  rw [if_neg (by linarith : ¬(u / 6 + 2 / 3 < 1 / 6))]
  rw [if_neg (by linarith : ¬(u / 6 + 2 / 3 < 1 / 2))]
  rcases lt_or_ge u 0 with hu | hu
  · rw [if_pos (by linarith : u / 6 + 2 / 3 < 2 / 3)]
    ring
  · have hu1 : u = 0 := le_antisymm h1 hu
    subst hu1
    rw [if_neg (by norm_num)]
    ring

/-- Helper: `hue2rgb` on the low plateau `t = u/6 + 2/3`, `u ∈ [0, 1]`. -/
theorem hue2rgb_seg_bot (p q u : ℚ) (h0 : 0 ≤ u) (h1 : u ≤ 1) :
    hue2rgb p q (u / 6 + 2 / 3) = p := by
  simp only [hue2rgb]
  rw [if_neg (by linarith : ¬(u / 6 + 2 / 3 < 0))]
  rw [if_neg (by linarith : ¬(u / 6 + 2 / 3 > 1))]
  rw [if_neg (by linarith : ¬(u / 6 + 2 / 3 < 1 / 6))]
  rw [if_neg (by linarith : ¬(u / 6 + 2 / 3 < 1 / 2))]
  rw [if_neg (by linarith : ¬(u / 6 + 2 / 3 < 2 / 3))]

/-- Helper: `hue2rgb` on the wrapped-negative plateau `t = u/6 - 1/3`,
`u ∈ [0, 1]` (the argument is lifted by one period). -/
theorem hue2rgb_seg_botneg (p q u : ℚ) (h0 : 0 ≤ u) (h1 : u ≤ 1) :
    hue2rgb p q (u / 6 - 1 / 3) = p := by
  simp only [hue2rgb]
  rcases lt_or_ge u 2 with hu | hu
  · rw [if_pos (by linarith : u / 6 - 1 / 3 < 0)]
    rw [if_neg (by linarith : ¬(u / 6 - 1 / 3 + 1 > 1))]
    rw [if_neg (by linarith : ¬(u / 6 - 1 / 3 + 1 < 1 / 6))]
    rw [if_neg (by linarith : ¬(u / 6 - 1 / 3 + 1 < 1 / 2))]
    rw [if_neg (by linarith : ¬(u / 6 - 1 / 3 + 1 < 2 / 3))]
  · linarith

/-- Helper: `hue2rgb` on the negative small segment `t = u/6`,
`u ∈ [-1, 0)`. -/
theorem hue2rgb_seg_negsmall (p q u : ℚ) (h0 : -1 ≤ u) (h1 : u < 0) :
    hue2rgb p q (u / 6) = p := by
  simp only [hue2rgb]
  rw [if_pos (by linarith : u / 6 < 0)]
  rw [if_neg (by linarith : ¬(u / 6 + 1 > 1))]
  rw [if_neg (by linarith : ¬(u / 6 + 1 < 1 / 6))]
  rw [if_neg (by linarith : ¬(u / 6 + 1 < 1 / 2))]
  rw [if_neg (by linarith : ¬(u / 6 + 1 < 2 / 3))]

/-- Helper: `hue2rgb` on the rising segment one period up, `t = u/6 + 1`,
`u ∈ [0, 1]`. -/
theorem hue2rgb_seg_up1 (p q u : ℚ) (h0 : 0 ≤ u) (h1 : u ≤ 1) :
    hue2rgb p q (u / 6 + 1) = p + (q - p) * u := by
  simp only [hue2rgb]
  rw [if_neg (by linarith : ¬(u / 6 + 1 < 0))]
  rcases lt_or_ge u 0 with hu | hu
  · linarith
  rcases eq_or_lt_of_le hu with hu0 | hupos
  · rw [← hu0]
    rw [if_neg (by norm_num : ¬((0 : ℚ) / 6 + 1 > 1))]
    rw [if_neg (by norm_num), if_neg (by norm_num), if_neg (by norm_num)]
    ring
  · rw [if_pos (by linarith : u / 6 + 1 > 1)]
    rcases lt_or_ge u 1 with hu1 | hu1
    · rw [if_pos (by linarith : u / 6 + 1 - 1 < 1 / 6)]
      ring
    · have : u = 1 := le_antisymm h1 hu1
      subst this
      rw [if_neg (by norm_num), if_pos (by norm_num)]
      ring

/-- Helper: `hue2rgb` on the high plateau below one period, `t = u/6 + 1`,
`u ∈ [-1, 0)`. -/
theorem hue2rgb_seg_topwrap (p q u : ℚ) (h0 : -1 ≤ u) (h1 : u < 0) :
    hue2rgb p q (u / 6 + 1) = p := by
  simp only [hue2rgb]
  rw [if_neg (by linarith : ¬(u / 6 + 1 < 0))]
  rw [if_neg (by linarith : ¬(u / 6 + 1 > 1))]
  rw [if_neg (by linarith : ¬(u / 6 + 1 < 1 / 6))]
  rw [if_neg (by linarith : ¬(u / 6 + 1 < 1 / 2))]
  rw [if_neg (by linarith : ¬(u / 6 + 1 < 2 / 3))]

/-- Helper: `hue2rgb` on the plateau one period up, `t = u/6 + 4/3`,
`u ∈ [-1, 0]`. -/
theorem hue2rgb_seg_top1 (p q u : ℚ) (h0 : -1 ≤ u) (h1 : u ≤ 0) :
    hue2rgb p q (u / 6 + 4 / 3) = q := by
  simp only [hue2rgb]
  rw [if_neg (by linarith : ¬(u / 6 + 4 / 3 < 0))]
  rcases lt_or_ge u 0 with hu | hu
  · rw [if_pos (by linarith : u / 6 + 4 / 3 > 1)]
    rw [if_neg (by linarith : ¬(u / 6 + 4 / 3 - 1 < 1 / 6))]
    rw [if_pos (by linarith : u / 6 + 4 / 3 - 1 < 1 / 2)]
  · have hu0 : u = 0 := le_antisymm h1 hu
    subst hu0
    rw [if_pos (by norm_num : (0 : ℚ) / 6 + 4 / 3 > 1)]
    rw [if_neg (by norm_num), if_pos (by norm_num)]

/-- Helper: the HSL round trip is exact in rational arithmetic — converting
an in-range RGB triple to HSL and back reproduces it identically (the `±1`
tolerance in the spec absorbs only floating-point rounding, which the exact
model does not need). -/
theorem hslToRgb_rgbToHsl_exact (cr cg cb : ℤ)
    (k1 : 0 ≤ cr) (k2 : cr ≤ 255) (k3 : 0 ≤ cg) (k4 : cg ≤ 255)
    (k5 : 0 ≤ cb) (k6 : cb ≤ 255) :
    hslToRgb (rgbToHsl ⟨cr, cg, cb⟩) = ⟨cr, cg, cb⟩ := by
  have hcr1 : ((cr : ℚ)) ≤ 255 := by exact_mod_cast k2
  have hcg1 : ((cg : ℚ)) ≤ 255 := by exact_mod_cast k4
  have hcb1 : ((cb : ℚ)) ≤ 255 := by exact_mod_cast k6
  have hcr0 : (0 : ℚ) ≤ (cr : ℚ) := by exact_mod_cast k1
  have hcg0 : (0 : ℚ) ≤ (cg : ℚ) := by exact_mod_cast k3
  have hcb0 : (0 : ℚ) ≤ (cb : ℚ) := by exact_mod_cast k5
  simp only [rgbToHsl]
  set R : ℚ := (cr : ℚ) / 255 with hRdef
  set G : ℚ := (cg : ℚ) / 255 with hGdef
  set B : ℚ := (cb : ℚ) / 255 with hBdef
  have hR0 : 0 ≤ R := by rw [hRdef]; positivity
  have hG0 : 0 ≤ G := by rw [hGdef]; positivity
  have hB0 : 0 ≤ B := by rw [hBdef]; positivity
  have hR1 : R ≤ 1 := by rw [hRdef, div_le_one (by norm_num)]; linarith
  have hG1 : G ≤ 1 := by rw [hGdef, div_le_one (by norm_num)]; linarith
  have hB1 : B ≤ 1 := by rw [hBdef, div_le_one (by norm_num)]; linarith
  have hR255 : R * 255 = (cr : ℚ) := by rw [hRdef]; field_simp
  have hG255 : G * 255 = (cg : ℚ) := by rw [hGdef]; field_simp
  have hB255 : B * 255 = (cb : ℚ) := by rw [hBdef]; field_simp
  set mx := max R (max G B) with hmx
  set mn := min R (min G B) with hmn
  have hRmx : R ≤ mx := le_max_left _ _
  have hGmx : G ≤ mx := le_trans (le_max_left G B) (le_max_right R (max G B))
  have hBmx : B ≤ mx := le_trans (le_max_right G B) (le_max_right R (max G B))
  have hmnR : mn ≤ R := min_le_left _ _
  have hmnG : mn ≤ G := le_trans (min_le_right R (min G B)) (min_le_left G B)
  have hmnB : mn ≤ B := le_trans (min_le_right R (min G B)) (min_le_right G B)
  have hmx1 : mx ≤ 1 := max_le hR1 (max_le hG1 hB1)
  have hmn0 : 0 ≤ mn := le_min hR0 (le_min hG0 hB0)
  by_cases heq : mx = mn
  · rw [if_pos heq]
    have hRx : R = mx := le_antisymm hRmx (by rw [heq]; exact hmnR)
    have hGx : G = mx := le_antisymm hGmx (by rw [heq]; exact hmnG)
    have hBx : B = mx := le_antisymm hBmx (by rw [heq]; exact hmnB)
    simp only [hslToRgb]
    rw [if_pos trivial]
    have hl : (mx + mn) / 2 = mx := by rw [heq]; ring
    rw [hl, Rgb.mk.injEq]
    refine ⟨?_, ?_, ?_⟩
    · rw [← hRx, hR255]; exact jsRound_intCast cr
    · rw [← hGx, hG255]; exact jsRound_intCast cg
    · rw [← hBx, hB255]; exact jsRound_intCast cb
  · rw [if_neg heq]
    have hlt : mn < mx := lt_of_le_of_ne (le_trans hmnR hRmx) (Ne.symm heq)
    have hd0 : (0 : ℚ) < mx - mn := by linarith
    have hdne : mx - mn ≠ 0 := ne_of_gt hd0
    have hmnlt1 : mn < 1 := lt_of_lt_of_le hlt hmx1
    simp only [hslToRgb]
    have hs_pos : 0 < (if (mx + mn) / 2 > 1 / 2 then (mx - mn) / (2 - mx - mn)
        else (mx - mn) / (mx + mn)) := by
      split_ifs with hl2
      · exact div_pos hd0 (by linarith)
      · exact div_pos hd0 (by linarith)
    rw [if_neg hs_pos.ne']
    have hq : (if (mx + mn) / 2 < 1 / 2 then
          (mx + mn) / 2 * (1 + (if (mx + mn) / 2 > 1 / 2 then (mx - mn) / (2 - mx - mn)
            else (mx - mn) / (mx + mn)))
        else (mx + mn) / 2 + (if (mx + mn) / 2 > 1 / 2 then (mx - mn) / (2 - mx - mn)
            else (mx - mn) / (mx + mn))
          - (mx + mn) / 2 * (if (mx + mn) / 2 > 1 / 2 then (mx - mn) / (2 - mx - mn)
            else (mx - mn) / (mx + mn))) = mx := by
      rcases lt_trichotomy ((mx + mn) / 2) (1 / 2) with hl2 | hl2 | hl2
      · rw [if_pos hl2, if_neg (by linarith)]
        have hsum : (0 : ℚ) < mx + mn := by linarith
        field_simp
        ring
      · rw [if_neg (by linarith), if_neg (by linarith)]
        have hsum : mx + mn = 1 := by linarith
        have hmneq : mn = 1 - mx := by linarith
        rw [hsum, hmneq]
        norm_num
        ring
      · rw [if_neg (by linarith), if_pos hl2]
        have hden : (0 : ℚ) < 2 - mx - mn := by linarith
        field_simp
        ring
    rw [hq]
    have hp : 2 * ((mx + mn) / 2) - mx = mn := by ring
    rw [hp]
    by_cases hcR : mx = R
    · rw [if_pos hcR]
      by_cases hGB : G < B
      · rw [if_pos hGB]
        have hmnG2 : mn = G := by
          have hGR : G ≤ R := by rw [← hcR]; exact hGmx
          rw [hmn, min_eq_left (le_of_lt hGB), min_eq_right hGR]
        set x : ℚ := (G - B) / (mx - mn) with hx
        have hx0 : -1 ≤ x := by
          rw [hx, le_div_iff₀ hd0]
          have : B ≤ mx := hBmx
          linarith [hmnG2]
        have hx1 : x < 0 := div_neg_of_neg_of_pos (by linarith) hd0
        have hharg : (x + 6) / 6 * 360 / 360 = x / 6 + 1 := by ring
        rw [hharg]
        have ha1 : x / 6 + 1 + 1 / 3 = x / 6 + 4 / 3 := by ring
        have ha3 : x / 6 + 1 - 1 / 3 = x / 6 + 2 / 3 := by ring
        rw [ha1, ha3]
        rw [hue2rgb_seg_top1 mn mx x hx0 hx1.le,
            hue2rgb_seg_topwrap mn mx x hx0 hx1,
            hue2rgb_seg_down mn mx x hx0 hx1.le]
        rw [Rgb.mk.injEq]
        refine ⟨?_, ?_, ?_⟩
        · rw [hcR, hR255]; exact jsRound_intCast cr
        · rw [hmnG2, hG255]; exact jsRound_intCast cg
        · have hv : mn - (mx - mn) * x = B := by
            rw [hx, mul_comm, div_mul_cancel₀ _ hdne, hmnG2]
            ring
          rw [hv, hB255]; exact jsRound_intCast cb
      · rw [if_neg hGB]
        rw [add_zero]
        have hBG : B ≤ G := le_of_not_lt hGB
        have hmnB2 : mn = B := by
          have hBR : B ≤ R := by rw [← hcR]; exact hBmx
          rw [hmn, min_eq_right hBG, min_eq_right hBR]
        set x : ℚ := (G - B) / (mx - mn) with hx
        have hx0 : 0 ≤ x := div_nonneg (by linarith) hd0.le
        have hx1 : x ≤ 1 := by
          rw [hx, div_le_one hd0]
          linarith [hGmx, hmnB2]
        have hharg : x / 6 * 360 / 360 = x / 6 := by ring
        rw [hharg]
        rw [hue2rgb_seg_top mn mx x (by linarith) hx1,
            hue2rgb_seg_up mn mx x hx0 hx1,
            hue2rgb_seg_botneg mn mx x hx0 hx1]
        rw [Rgb.mk.injEq]
        refine ⟨?_, ?_, ?_⟩
        · rw [hcR, hR255]; exact jsRound_intCast cr
        · have hv : mn + (mx - mn) * x = G := by
            rw [hx, mul_comm, div_mul_cancel₀ _ hdne, hmnB2]
            ring
          rw [hv, hG255]; exact jsRound_intCast cg
        · rw [hmnB2, hB255]; exact jsRound_intCast cb
    · rw [if_neg hcR]
      by_cases hcG : mx = G
      · rw [if_pos hcG]
        set x : ℚ := (B - R) / (mx - mn) with hx
        have hharg : (x + 2) / 6 * 360 / 360 = x / 6 + 1 / 3 := by ring
        have ha1 : x / 6 + 1 / 3 + 1 / 3 = x / 6 + 2 / 3 := by ring
        have ha3 : x / 6 + 1 / 3 - 1 / 3 = x / 6 := by ring
        by_cases hBR : R ≤ B
        · have hmnR2 : mn = R := by
            have hRG : R ≤ G := by rw [← hcG]; exact hRmx
            rw [hmn, min_eq_left (le_min hRG hBR)]
          have hx0 : 0 ≤ x := div_nonneg (by linarith) hd0.le
          have hx1 : x ≤ 1 := by
            rw [hx, div_le_one hd0]
            linarith [hBmx, hmnR2]
          rw [hharg, ha1, ha3]
          rw [hue2rgb_seg_bot mn mx x hx0 hx1,
              hue2rgb_seg_top mn mx x (by linarith) hx1,
              hue2rgb_seg_up mn mx x hx0 hx1]
          rw [Rgb.mk.injEq]
          refine ⟨?_, ?_, ?_⟩
          · rw [hmnR2, hR255]; exact jsRound_intCast cr
          · rw [hcG, hG255]; exact jsRound_intCast cg
          · have hv : mn + (mx - mn) * x = B := by
              rw [hx, mul_comm, div_mul_cancel₀ _ hdne, hmnR2]
              ring
            rw [hv, hB255]; exact jsRound_intCast cb
        · push_neg at hBR
          have hmnB2 : mn = B := by
            have hBG : B ≤ G := by rw [← hcG]; exact hBmx
            rw [hmn, min_eq_right hBG, min_eq_right hBR.le]
          have hx0 : -1 ≤ x := by
            rw [hx, le_div_iff₀ hd0]
            linarith [hRmx, hmnB2]
          have hx1 : x < 0 := div_neg_of_neg_of_pos (by linarith) hd0
          rw [hharg, ha1, ha3]
          rw [hue2rgb_seg_down mn mx x hx0 hx1.le,
              hue2rgb_seg_top mn mx x hx0 (by linarith),
              hue2rgb_seg_negsmall mn mx x hx0 hx1]
          rw [Rgb.mk.injEq]
          refine ⟨?_, ?_, ?_⟩
          · have hv : mn - (mx - mn) * x = R := by
              rw [hx, mul_comm, div_mul_cancel₀ _ hdne, hmnB2]
              ring
            rw [hv, hR255]; exact jsRound_intCast cr
          · rw [hcG, hG255]; exact jsRound_intCast cg
          · rw [hmnB2, hB255]; exact jsRound_intCast cb
      · rw [if_neg hcG]
        have hmxB : mx = B := by
          have hchoice : mx = R ∨ mx = max G B := max_choice R (max G B)
          rcases hchoice with h | h
          · exact absurd h hcR
          · rcases max_choice G B with h2 | h2
            · exact absurd (h.trans h2) hcG
            · exact h.trans h2
        set x : ℚ := (R - G) / (mx - mn) with hx
        have hharg : (x + 4) / 6 * 360 / 360 = x / 6 + 2 / 3 := by ring
        have ha1 : x / 6 + 2 / 3 + 1 / 3 = x / 6 + 1 := by ring
        have ha3 : x / 6 + 2 / 3 - 1 / 3 = x / 6 + 1 / 3 := by ring
        by_cases hRG : G ≤ R
        · have hmnG2 : mn = G := by
            have hGB2 : G ≤ B := by rw [← hmxB]; exact hGmx
            rw [hmn, min_eq_left hGB2, min_eq_right hRG]
          have hx0 : 0 ≤ x := div_nonneg (by linarith) hd0.le
          have hx1 : x ≤ 1 := by
            rw [hx, div_le_one hd0]
            linarith [hRmx, hmnG2]
          rw [hharg, ha1, ha3]
          rw [hue2rgb_seg_up1 mn mx x hx0 hx1,
              hue2rgb_seg_bot mn mx x hx0 hx1,
              hue2rgb_seg_top mn mx x (by linarith) hx1]
          rw [Rgb.mk.injEq]
          refine ⟨?_, ?_, ?_⟩
          · have hv : mn + (mx - mn) * x = R := by
              rw [hx, mul_comm, div_mul_cancel₀ _ hdne, hmnG2]
              ring
            rw [hv, hR255]; exact jsRound_intCast cr
          · rw [hmnG2, hG255]; exact jsRound_intCast cg
          · rw [hmxB, hB255]; exact jsRound_intCast cb
        · push_neg at hRG
          have hmnR2 : mn = R := by
            have hRB : R ≤ B := by rw [← hmxB]; exact hRmx
            rw [hmn, min_eq_left (le_min hRG.le hRB)]
          have hx0 : -1 ≤ x := by
            rw [hx, le_div_iff₀ hd0]
            linarith [hGmx, hmnR2]
          have hx1 : x < 0 := div_neg_of_neg_of_pos (by linarith) hd0
          rw [hharg, ha1, ha3]
          rw [hue2rgb_seg_topwrap mn mx x hx0 hx1,
              hue2rgb_seg_down mn mx x hx0 hx1.le,
              hue2rgb_seg_top mn mx x hx0 (by linarith)]
          rw [Rgb.mk.injEq]
          refine ⟨?_, ?_, ?_⟩
          · rw [hmnR2, hR255]; exact jsRound_intCast cr
          · have hv : mn - (mx - mn) * x = G := by
              rw [hx, mul_comm, div_mul_cancel₀ _ hdne, hmnR2]
              ring
            rw [hv, hG255]; exact jsRound_intCast cg
          · rw [hmxB, hB255]; exact jsRound_intCast cb

/-- Helper: achromatic inputs (all channels equal) produce hue 0 and
saturation 0. -/
theorem rgbToHsl_achromatic (cr cg cb : ℤ) (hg : cr = cg) (hb : cg = cb) :
    (rgbToHsl ⟨cr, cg, cb⟩).h = 0 ∧ (rgbToHsl ⟨cr, cg, cb⟩).s = 0 := by
  subst hg
  subst hb
  simp only [rgbToHsl]
  rw [max_self, max_self, min_self, min_self, if_pos rfl]
  exact ⟨rfl, rfl⟩

/-- C9: converting an in-range triple to HSL and back differs from the
original by at most 1 per channel (in the exact rational model it is in fact
identical), and achromatic input yields hue 0 and saturation 0. -/
theorem hslToRgb_rgbToHsl_roundtrip :
    ∀ c : Rgb, c.InRange →
      (((hslToRgb (rgbToHsl c)).r - c.r).natAbs ≤ 1 ∧
        ((hslToRgb (rgbToHsl c)).g - c.g).natAbs ≤ 1 ∧
        ((hslToRgb (rgbToHsl c)).b - c.b).natAbs ≤ 1) ∧
      (c.r = c.g ∧ c.g = c.b → (rgbToHsl c).h = 0 ∧ (rgbToHsl c).s = 0) := by
  intro c hc
  obtain ⟨cr, cg, cb⟩ := c
  obtain ⟨k1, k2, k3, k4, k5, k6⟩ := hc
  constructor
  · have hx := hslToRgb_rgbToHsl_exact cr cg cb k1 k2 k3 k4 k5 k6
    rw [hx]
    simp
  · rintro ⟨hg, hb⟩
    exact rgbToHsl_achromatic cr cg cb hg hb

/-- C9 witness: the round-trip theorem instantiated at the concrete in-range
triple `[10, 20, 30]`. -/
theorem hslToRgb_rgbToHsl_roundtrip_witness :
    (((hslToRgb (rgbToHsl ⟨10, 20, 30⟩)).r - (10 : ℤ)).natAbs ≤ 1 ∧
      ((hslToRgb (rgbToHsl ⟨10, 20, 30⟩)).g - (20 : ℤ)).natAbs ≤ 1 ∧
      ((hslToRgb (rgbToHsl ⟨10, 20, 30⟩)).b - (30 : ℤ)).natAbs ≤ 1) ∧
    ((10 : ℤ) = 20 ∧ (20 : ℤ) = 30 →
      (rgbToHsl ⟨10, 20, 30⟩).h = 0 ∧ (rgbToHsl ⟨10, 20, 30⟩).s = 0) :=
  hslToRgb_rgbToHsl_roundtrip ⟨10, 20, 30⟩ (by decide)
